import Mathlib

/-!
Verification of the f1api server (`src/f1api.js`).

The development shallowly embeds the server's helper functions and route
handlers as executable Lean definitions:

* JavaScript strings are `List Char`; the pieces of the `slugify` regex
  pipeline (`toLowerCase`, `trim`, character filtering, whitespace
  collapsing) are modelled character-by-character on code points.
* JavaScript runtime values relevant to the code's truthiness checks are
  the inductive `JsValue`.
* Filesystem reads, `JSON.parse`, `Date` year extraction and the spawned
  python process are external collaborators; they enter the definitions as
  explicit parameters (an `Option`/`Except`-valued content or a function
  from arguments to a process outcome), so every handler is a pure
  function of its inputs.

Route handlers return small inductive response types recording the HTTP
status class and the rendered view-model fields the theorems talk about.
-/

/-- JavaScript strings, modelled as lists of characters. -/
abbrev JStr := List Char

/-- Conversion from Lean string literals to the `JStr` model. -/
def js (s : String) : JStr := s.data

/-- Code points matched by the JavaScript regexp class `\s`
(ECMAScript WhiteSpace plus LineTerminator), which is also the set of
characters removed by `String.prototype.trim`. -/
def jsIsWhitespace (c : Char) : Bool :=
  c.toNat = 0x9 || c.toNat = 0xa || c.toNat = 0xb || c.toNat = 0xc ||
  c.toNat = 0xd || c.toNat = 0x20 || c.toNat = 0xa0 || c.toNat = 0x1680 ||
  (0x2000 ≤ c.toNat && c.toNat ≤ 0x200a) ||
  c.toNat = 0x2028 || c.toNat = 0x2029 || c.toNat = 0x202f ||
  c.toNat = 0x205f || c.toNat = 0x3000 || c.toNat = 0xfeff

/-- ASCII range `[a-z]` of the slugify regexes. -/
def isLowerAlpha (c : Char) : Bool := 0x61 ≤ c.toNat && c.toNat ≤ 0x7a

/-- ASCII range `[0-9]` of the slugify regexes. -/
def isDigitChar (c : Char) : Bool := 0x30 ≤ c.toNat && c.toNat ≤ 0x39

/-- One character of `String.prototype.toLowerCase` (ASCII case mapping;
characters outside `A`–`Z` are left unchanged, which is all the slugify
pipeline can observe because its filter keeps only `[a-z0-9\s-]`). -/
def jsToLower (c : Char) : Char :=
  if 0x41 ≤ c.toNat ∧ c.toNat ≤ 0x5a then Char.ofNat (c.toNat + 32) else c

/-- Model of `String.prototype.toLowerCase` over the whole string. -/
def jsToLowerStr (s : JStr) : JStr := s.map jsToLower

/-- Model of `String.prototype.trim`: drop whitespace from both ends. -/
def jsTrim (s : JStr) : JStr :=
  ((s.dropWhile jsIsWhitespace).reverse.dropWhile jsIsWhitespace).reverse

/-- The character class `[a-z0-9\s-]`: exactly the characters kept by
slugify's `.replace(/[^a-z0-9\s-]/g, '')`. -/
def allowedSlugChar (c : Char) : Bool :=
  isLowerAlpha c || isDigitChar c || jsIsWhitespace c || c == '-'

/-- Worker for `.replace(/\s+/g, '-')`: the boolean flag records whether we
are inside a whitespace run whose hyphen has already been emitted. -/
def collapseGo : List Char → Bool → List Char
  | [], _ => []
  | c :: r, inWs =>
    if jsIsWhitespace c then
      if inWs then collapseGo r true else '-' :: collapseGo r true
    else c :: collapseGo r false

/-- Model of `.replace(/\s+/g, '-')`: every maximal whitespace run becomes one hyphen. -/
def collapseWs (s : JStr) : JStr := collapseGo s false

/-- The string pipeline of `slugify` from f1api.js line 23:
`.toLowerCase().trim().replace(/[^a-z0-9\s-]/g, '').replace(/\s+/g, '-')`. -/
def slugifyStr (s : JStr) : JStr :=
  collapseWs ((jsTrim (jsToLowerStr s)).filter allowedSlugChar)

/-- Characters that can appear in a slug: `[a-z0-9-]`. -/
def isSlugChar (c : Char) : Bool := isLowerAlpha c || isDigitChar c || c == '-'

/-- A character that survives slugify's filter without turning into a
hyphen source: its lowercase form is a letter or digit, or it is
whitespace.  (A literal `'-'` does not satisfy this predicate.) -/
def keptChar (c : Char) : Bool :=
  isLowerAlpha (jsToLower c) || isDigitChar (jsToLower c) || jsIsWhitespace c

/-- Holds (`true`) iff the string has no two adjacent hyphens. -/
def noDoubleHyphen : List Char → Bool
  | a :: b :: r => !(a == '-' && b == '-') && noDoubleHyphen (b :: r)
  | _ => true

-- sanity checks (concrete evaluations of the model)
example : slugifyStr (js "  Max Verstappen  ") = js "max-verstappen" := by decide
example : slugifyStr (js "Haas F1 Team") = js "haas-f1-team" := by decide
example : slugifyStr (js "--A  b--") = js "--a-b--" := by decide

/-- JavaScript runtime values as far as the server's truthiness checks and
string coercions can observe them. -/
inductive JsValue where
  | undef
  | null
  | nan
  | bool (b : Bool)
  | num (n : Int)
  | str (s : JStr)
  deriving DecidableEq

/-- JavaScript truthiness of a `JsValue`. -/
def jsTruthy : JsValue → Bool
  | .undef => false
  | .null => false
  | .nan => false
  | .bool b => b
  | .num n => n != 0
  | .str s => s != []

/-- Decimal rendering of an integer, as JavaScript `String(n)` renders it. -/
def intToStr (n : Int) : JStr :=
  if n < 0 then '-' :: Nat.toDigits 10 n.natAbs else Nat.toDigits 10 n.toNat

/-- JavaScript `String(v)` coercion. -/
def jsToString : JsValue → JStr
  | .undef => js "undefined"
  | .null => js "null"
  | .nan => js "NaN"
  | .bool true => js "true"
  | .bool false => js "false"
  | .num n => intToStr n
  | .str s => s

/-- Model of `slugify` from f1api.js line 23, on an arbitrary runtime value:
`String(text || '').toLowerCase().trim().replace(...).replace(...)`.
The `text || ''` short-circuit maps every falsy argument to the empty
string before coercion; the function is total and never throws. -/
def slugify (text : JsValue) : JStr :=
  slugifyStr (jsToString (if jsTruthy text then text else .str []))

/-- Model of `readJSON` from f1api.js line 22:
`try { return JSON.parse(fs.readFileSync(filePath, 'utf8')) } catch { return null }`.
`readFile` is the outcome of `fs.readFileSync` (`none` models a thrown
read error such as a missing file) and `parse` is the outcome of
`JSON.parse` on the file's text (`Except.error` models a thrown
`SyntaxError`).  Both exceptions are swallowed by the `catch`, which
returns the `null` sentinel, modelled as `none`. -/
def readJSON {α : Type} (readFile : Option JStr) (parse : JStr → Except JStr α) :
    Option α :=
  match readFile with
  | none => none
  | some content =>
    match parse content with
    | .error _ => none
    | .ok v => some v

/-- Observable outcome of a spawned python process: its exit code and the
complete text collected from its standard output and standard error. -/
structure ProcOutcome where
  exitCode : Int
  stdout : JStr
  stderr : JStr
  deriving DecidableEq

/-- Result of the promise returned by `runPython`. -/
inductive PyResult where
  | resolved (out : JStr)
  | rejected (msg : JStr)
  deriving DecidableEq

/-- Model of `runPython` from f1api.js lines 25–48.  `scriptExists` is the outcome
of `fs.existsSync(scriptPath)`; `proc` maps the full spawn argument vector
(`['-X', 'utf8', scriptPath, ...args]`) to the process outcome.  On a
non-zero exit code the promise rejects with the trimmed stderr text if it
is non-empty, otherwise with a message naming the exit code; on exit code
zero it resolves with the captured stdout.  Stderr is only logged. -/
def runPython (scriptExists : Bool) (proc : List JStr → ProcOutcome)
    (scriptPath : JStr) (args : List JStr) : PyResult :=
  if scriptExists = false then
    .rejected (js "Python script not found: " ++ scriptPath)
  else
    let o := proc (js "-X" :: js "utf8" :: scriptPath :: args)
    if o.exitCode ≠ 0 then
      .rejected (if jsTrim o.stderr ≠ [] then jsTrim o.stderr
                 else js "Python script exited with code " ++ intToStr o.exitCode)
    else
      .resolved o.stdout

example : slugify (.str (js "  Max Verstappen ")) = js "max-verstappen" := by decide
example : slugify .null = [] := by decide
example : slugify (.num 44) = js "44" := by decide
example :
    runPython true (fun _ => ⟨1, js "o", js " boom "⟩) (js "x.py") [] =
      .rejected (js "boom") := by decide
example :
    runPython true (fun _ => ⟨1, js "o", js "  "⟩) (js "x.py") [] =
      .rejected (js "Python script exited with code 1") := by decide

/-- A record of `drivers.json` (fields the routes read). -/
structure Driver where
  full_name : JStr
  team_name : JStr
  number : JsValue
  deriving DecidableEq

/-- A per-driver record of `stats/<slug>.json`: `season` and `career`
sub-objects (absent keys are `none`). -/
structure DriverStats where
  season : Option (List (JStr × JsValue))
  career : Option (List (JStr × JsValue))
  deriving DecidableEq

/-- Response of `GET /drivers/:driverId`: the status the handler sets and
the view-model fields that vary. -/
inductive DriverDetailRes where
  | notFound
  | ok (info : Driver) (description : JStr)
      (season career : List (JStr × JsValue))
  | error500
  deriving DecidableEq

/-- The lookup on f1api.js line 108:
`drivers.find(d => slugify(d.full_name) === driverId)`. -/
def findDriver (drivers : List Driver) (driverId : JStr) : Option Driver :=
  drivers.find? (fun d => slugifyStr d.full_name == driverId)

/-- Fallback description from f1api.js line 115. -/
def defaultDriverDesc : JStr := js "이 드라이버에 대한 추가 정보가 없습니다."

/-- Handler of `GET /drivers/:driverId` (f1api.js lines 104–135).
`drivers` is the `readJSON` result for `drivers.json`, `descs` the one for
`driver_descriptions.json`, and `statsOf` maps a slug to the `readJSON`
result for `stats/<slug>.json`.  When `drivers` is the `null` sentinel,
`drivers.find` throws a `TypeError` that the `catch` converts into the
500 render (`error500`); the same happens for `driverDescriptions[...]`
when `descs` is `null` after a driver was found. -/
def driverDetailHandler (driverId : JStr) (drivers : Option (List Driver))
    (descs : Option (List (JStr × JStr))) (statsOf : JStr → Option DriverStats) :
    DriverDetailRes :=
  match drivers with
  | none => .error500
  | some ds =>
    match findDriver ds driverId with
    | none => .notFound
    | some driver =>
      match descs with
      | none => .error500
      | some dm =>
        let description :=
          match dm.lookup driver.full_name with
          | some v => if v ≠ [] then v else defaultDriverDesc
          | none => defaultDriverDesc
        let st := statsOf (slugifyStr driver.full_name)
        .ok driver description
          ((st.bind DriverStats.season).getD [])
          ((st.bind DriverStats.career).getD [])

/-- A record of `schedule.json` (fields the routes read). -/
structure Session where
  session_key : JsValue
  circuit_short_name : Option JStr
  meeting_name : JsValue
  session_name : JsValue
  session_year : JsValue
  date_start : JsValue
  deriving DecidableEq

/-- A record of `track_layouts.json`, keyed by normalized circuit name. -/
structure Layout where
  circuit_short_name : JStr
  deriving DecidableEq

/-- The session lookup shared by `GET /replays/:session_key` (line 180) and
`GET /api/locations/...` (line 241):
`schedule?.find(s => String(s.session_key) === session_key)`.
A `null` schedule short-circuits to `undefined`. -/
def lookupSession (schedule : Option (List Session)) (key : JStr) :
    Option Session :=
  match schedule with
  | none => none
  | some l => l.find? (fun s => jsToString s.session_key == key)

/-- f1api.js line 186:
`sessionInfo.circuit_short_name?.toLowerCase().replace(/\s+/g, '-')`
(`none` when the field is null/undefined). -/
def circuitNameOf (si : Session) : Option JStr :=
  si.circuit_short_name.map (fun s => collapseWs (jsToLowerStr s))

/-- f1api.js line 187: `layouts?.find(l => l.circuit_short_name === circuitName)`.
With a `null` layouts file, or an absent circuit name (a string field is
never strictly equal to `undefined`), there is no match. -/
def findLayout (layouts : Option (List Layout)) (circuitName : Option JStr) :
    Option Layout :=
  match layouts, circuitName with
  | some ls, some c => ls.find? (fun l => l.circuit_short_name == c)
  | _, _ => none

/-- The fixed extension priority list of f1api.js line 191. -/
def possibleExtensions : List JStr :=
  [js "avif", js "png", js "webp", js "jpg", js "jpeg"]

/-- The probed file name `` `${circuitName}.${ext}` `` within the tracks
image directory. -/
def imageName (circuitName ext : JStr) : JStr := circuitName ++ '.' :: ext

/-- The URL rendered for a chosen image file. -/
def imageUrl (circuitName ext : JStr) : JStr :=
  js "/images/tracks/" ++ imageName circuitName ext

/-- The image probe loop of f1api.js lines 190–200: try the extensions in
order and keep the first whose file exists; `fsExists` is the outcome of
`fs.existsSync` on the corresponding path under `public/images/tracks`. -/
def probeImage (fsExists : JStr → Bool) (circuitName : JStr) : Option JStr :=
  (possibleExtensions.find? (fun e => fsExists (imageName circuitName e))).map
    (imageUrl circuitName)

example :
    probeImage (fun n => n == js "bahrain.png" || n == js "bahrain.jpg")
      (js "bahrain") = some (js "/images/tracks/bahrain.png") := by decide
example : probeImage (fun _ => false) (js "bahrain") = none := by decide

/-- The object parsed from the race-timing script's stdout (fields the
handler reads; absent keys are `none`). -/
structure RaceTiming where
  error : Option JsValue
  race_start_date : Option JStr
  race_end_date : Option JStr
  all_messages : Option JsValue
  deriving DecidableEq

/-- Year derivation shared by `fetchRaceTimingFromPython` (lines 55–58) and
the locations route (lines 247–250): start from `session_year`; when that
is falsy or the literal string `'undefined'` and `date_start` is truthy,
take `new Date(date_start).getFullYear()`.  `dateYear` models the `Date`
library call (`none` is a `NaN` year from an invalid date). -/
def deriveYear (dateYear : JsValue → Option Int) (si : Session) : JsValue :=
  if (jsTruthy si.session_year = false ∨
      si.session_year = .str (js "undefined")) ∧ jsTruthy si.date_start then
    match dateYear si.date_start with
    | some y => .num y
    | none => .nan
  else si.session_year

/-- The error text of f1api.js line 64 (template literal filled in with
`String(...)` of the three values). -/
def incompleteTimingMsg (year event session : JsValue) : JStr :=
  js "Incomplete session data from schedule.json: Year=\x27" ++ jsToString year ++
  js "\x27, Event=\x27" ++ jsToString event ++
  js "\x27, Session=\x27" ++ jsToString session ++ js "\x27"

/-- The argument vector of f1api.js lines 67–72 (spawn stringifies each
argument). -/
def timingArgs (dateYear : JsValue → Option Int) (si : Session) : List JStr :=
  [js "race_times", js "--year", jsToString (deriveYear dateYear si),
   js "--event", jsToString si.meeting_name,
   js "--session", jsToString si.session_name]

/-- Model of `fetchRaceTimingFromPython` from f1api.js lines 50–82.  `parse` is the
outcome of `JSON.parse` on the script's stdout.  Every `throw` — null
session info, incomplete session data, a rejected `runPython` promise, a
parse failure, or a truthy `error` field in the parsed output — is logged
and re-thrown, so the function's result is an `Except` carrying the error
message. -/
def fetchRaceTiming (scriptExists : Bool) (proc : List JStr → ProcOutcome)
    (parse : JStr → Except JStr RaceTiming) (dateYear : JsValue → Option Int)
    (siOpt : Option Session) : Except JStr RaceTiming :=
  match siOpt with
  | none => .error (js "Session info cannot be null.")
  | some si =>
    let year := deriveYear dateYear si
    if jsTruthy year = false ∨ jsTruthy si.meeting_name = false ∨
        jsTruthy si.session_name = false then
      .error (incompleteTimingMsg year si.meeting_name si.session_name)
    else
      match runPython scriptExists proc (js "get_replay_data.py")
          (timingArgs dateYear si) with
      | .rejected m => .error m
      | .resolved raw =>
        match parse raw with
        | .error m => .error m
        | .ok rt =>
          match rt.error with
          | some ev => if jsTruthy ev then .error (jsToString ev) else .ok rt
          | none => .ok rt

/-- A record of `f1_team.json` (fields the replay route reads). -/
structure Team where
  name : JStr
  teamColor : Option JStr
  deriving DecidableEq

/-- One entry of the replay page's `driverDirectory`. -/
structure DirEntry where
  full_name : JStr
  team_colour : JStr
  deriving DecidableEq

/-- JavaScript object assignment `m[k] = v`: overwrite the key when
present, append it otherwise. -/
def setKey {α : Type} : List (JStr × α) → JStr → α → List (JStr × α)
  | [], k, v => [(k, v)]
  | (k2, v2) :: r, k, v =>
    if k2 = k then (k2, v) :: r else (k2, v2) :: setKey r k v

/-- The `teamInfoMap` reduce of f1api.js line 209, keeping only the color. -/
def teamInfoMapOf (teams : List Team) : List (JStr × Option JStr) :=
  teams.foldl (fun acc t => setKey acc t.name t.teamColor) []

/-- Model of the color fallback `teamInfoMap[d.team_name]?.color || '#FFFFFF'` from f1api.js line 210. -/
def colorLookup (m : List (JStr × Option JStr)) (k : JStr) : JStr :=
  match m.lookup k with
  | some (some c) => if c ≠ [] then c else js "#FFFFFF"
  | _ => js "#FFFFFF"

/-- The `driverDirectory` construction of f1api.js lines 207–211: built
only when both files loaded (`if (drivers && f1Teams)`), keyed by the
string coercion of a truthy `d.number`. -/
def buildDriverDirectory (drivers : Option (List Driver))
    (f1Teams : Option (List Team)) : List (JStr × DirEntry) :=
  match drivers, f1Teams with
  | some ds, some ts =>
    let tm := teamInfoMapOf ts
    ds.foldl
      (fun acc d =>
        if jsTruthy d.number then
          setKey acc (jsToString d.number) ⟨d.full_name, colorLookup tm d.team_name⟩
        else acc) []
  | _, _ => []

/-- The merged `finalSessionInfo` of f1api.js lines 213–222: the schedule
record spread together with the probe and layout results, with
`date_start` overridden and `race_end_date` / `race_control_messages`
added when the corresponding race-timing fields are truthy. -/
structure FinalSessionInfo where
  base : Session
  trackImageUrl : Option JStr
  layout : Option Layout
  date_start : JsValue
  race_end_date : Option JStr
  race_control_messages : Option JsValue
  deriving DecidableEq

/-- View model handed to the `race-tracker` render on success. -/
structure ReplaysVM where
  session_key : JStr
  driverDirectory : List (JStr × DirEntry)
  sessionInfo : FinalSessionInfo
  deriving DecidableEq

/-- Response of `GET /replays/:session_key`. -/
inductive ReplaysRes where
  | notFound
  | ok (vm : ReplaysVM)
  | error500 (msg : JStr)
  deriving DecidableEq

/-- Error message head of the replay route's catch (f1api.js line 233). -/
def pageLoadErrHead : JStr := js "페이지 로드 중 오류 발생: "

/-- Handler of `GET /replays/:session_key` (f1api.js lines 175–235).
Inputs are the `readJSON` results for the four data files, the filesystem
probe, and the collaborators of the race-timing fetch.  A missing session
is the 404 render; a rejected race-timing fetch is caught and rendered as
the 500 state with the error's message appended to the catch's text. -/
def replaysHandler (session_key : JStr) (schedule : Option (List Session))
    (layouts : Option (List Layout)) (fsExists : JStr → Bool)
    (drivers : Option (List Driver)) (f1Teams : Option (List Team))
    (scriptExists : Bool) (proc : List JStr → ProcOutcome)
    (parse : JStr → Except JStr RaceTiming) (dateYear : JsValue → Option Int) :
    ReplaysRes :=
  match lookupSession schedule session_key with
  | none => .notFound
  | some si =>
    let circuitName := circuitNameOf si
    let layout := findLayout layouts circuitName
    let trackImageUrl :=
      match circuitName with
      | some c => if c ≠ [] then probeImage fsExists c else none
      | none => none
    match fetchRaceTiming scriptExists proc parse dateYear (some si) with
    | .error m => .error500 (pageLoadErrHead ++ m)
    | .ok rt =>
      let dd := buildDriverDirectory drivers f1Teams
      .ok
        { session_key := session_key
          driverDirectory := dd
          sessionInfo :=
            { base := si
              trackImageUrl := trackImageUrl
              layout := layout
              date_start :=
                match rt.race_start_date with
                | some d => if d ≠ [] then .str d else si.date_start
                | none => si.date_start
              race_end_date :=
                match rt.race_end_date with
                | some d => if d ≠ [] then some d else none
                | none => none
              race_control_messages :=
                match rt.all_messages with
                | some v => if jsTruthy v then some v else none
                | none => none } }

/-- Response of `GET /api/locations/:session_key/:startTime/:endTime`. -/
inductive LocationsRes (α : Type) where
  | notFound
  | okJson (v : α)
  | err500 (msg : JStr)
  deriving DecidableEq

/-- Error message head of the locations route's catch (f1api.js line 277). -/
def locationsErrHead : JStr := js "Internal server error while fetching locations: "

/-- Handler of `GET /api/locations/:session_key/:startTime/:endTime`
(f1api.js lines 237–279).  A missing session is the 404 JSON body;
incomplete session data and a missing script are their own 500 bodies; a
rejected `runPython` promise or a `JSON.parse` failure on its output is
caught and wrapped by the catch's message. -/
def locationsHandler {α : Type} (session_key startTime endTime : JStr)
    (schedule : Option (List Session)) (dateYear : JsValue → Option Int)
    (scriptExists : Bool) (proc : List JStr → ProcOutcome)
    (parse : JStr → Except JStr α) : LocationsRes α :=
  match lookupSession schedule session_key with
  | none => .notFound
  | some si =>
    let year := deriveYear dateYear si
    if jsTruthy year = false ∨ jsTruthy si.meeting_name = false ∨
        jsTruthy si.session_name = false then
      .err500 (js "Incomplete session data to fetch locations.")
    else if scriptExists = false then
      .err500 (js "get_driver_locations.py 스크립트를 찾을 수 없습니다.")
    else
      match runPython scriptExists proc (js "get_driver_locations.py")
          [jsToString year, jsToString si.meeting_name,
           jsToString si.session_name, startTime, endTime] with
      | .rejected m => .err500 (locationsErrHead ++ m)
      | .resolved out =>
        match parse out with
        | .ok v => .okJson v
        | .error m => .err500 (locationsErrHead ++ m)

/-! ### Character-class facts -/

theorem isSlugChar_cases {c : Char} (h : isSlugChar c = true) :
    (0x61 ≤ c.toNat ∧ c.toNat ≤ 0x7a) ∨ (0x30 ≤ c.toNat ∧ c.toNat ≤ 0x39) ∨
      c = '-' := by
  simpa [isSlugChar, isLowerAlpha, isDigitChar, Bool.or_eq_true, Bool.and_eq_true,
    decide_eq_true_eq, beq_iff_eq, or_assoc] using h

theorem not_ws_of_isSlugChar {c : Char} (h : isSlugChar c = true) :
    jsIsWhitespace c = false := by
  rcases isSlugChar_cases h with h1 | h1 | rfl
  · rw [Bool.eq_false_iff]
    intro hw
    simp only [jsIsWhitespace, Bool.or_eq_true, Bool.and_eq_true,
      decide_eq_true_eq] at hw
    omega
  · rw [Bool.eq_false_iff]
    intro hw
    simp only [jsIsWhitespace, Bool.or_eq_true, Bool.and_eq_true,
      decide_eq_true_eq] at hw
    omega
  · decide

theorem jsToLower_eq_self_of_isSlugChar {c : Char} (h : isSlugChar c = true) :
    jsToLower c = c := by
  rcases isSlugChar_cases h with h1 | h1 | rfl
  · unfold jsToLower
    rw [if_neg (by omega)]
  · unfold jsToLower
    rw [if_neg (by omega)]
  · decide

theorem char_toNat_ofNat {n : Nat} (h : n.isValidChar) :
    (Char.ofNat n).toNat = n := by
  unfold Char.ofNat
  rw [dif_pos h]
  rfl

theorem toNat_jsToLower (c : Char) :
    (jsToLower c).toNat =
      if 0x41 ≤ c.toNat ∧ c.toNat ≤ 0x5a then c.toNat + 32 else c.toNat := by
  by_cases h : 0x41 ≤ c.toNat ∧ c.toNat ≤ 0x5a
  · have hv : (c.toNat + 32).isValidChar := Or.inl (by omega)
    rw [if_pos h]
    unfold jsToLower
    rw [if_pos h]
    exact char_toNat_ofNat hv
  · rw [if_neg h]
    unfold jsToLower
    rw [if_neg h]

theorem ws_jsToLower (c : Char) :
    jsIsWhitespace (jsToLower c) = jsIsWhitespace c := by
  by_cases h : 0x41 ≤ c.toNat ∧ c.toNat ≤ 0x5a
  · have h1 : (jsToLower c).toNat = c.toNat + 32 := by
      rw [toNat_jsToLower, if_pos h]
    have l : jsIsWhitespace (jsToLower c) = false := by
      rw [Bool.eq_false_iff]
      intro hw
      simp only [jsIsWhitespace, Bool.or_eq_true, Bool.and_eq_true,
        decide_eq_true_eq] at hw
      omega
    have r : jsIsWhitespace c = false := by
      rw [Bool.eq_false_iff]
      intro hw
      simp only [jsIsWhitespace, Bool.or_eq_true, Bool.and_eq_true,
        decide_eq_true_eq] at hw
      omega
    rw [l, r]
  · unfold jsToLower
    rw [if_neg h]

theorem eq_hyphen_of_jsToLower {c : Char} (h : jsToLower c = '-') : c = '-' := by
  by_cases hc : 0x41 ≤ c.toNat ∧ c.toNat ≤ 0x5a
  · exfalso
    have h1 : (jsToLower c).toNat = c.toNat + 32 := by
      rw [toNat_jsToLower, if_pos hc]
    rw [h] at h1
    have h2 : ('-').toNat = 45 := rfl
    omega
  · rw [jsToLower, if_neg hc] at h
    exact h

theorem allowed_of_kept {c : Char} (h : keptChar c = true) :
    allowedSlugChar (jsToLower c) = true := by
  simp only [keptChar, Bool.or_eq_true, or_assoc] at h
  rcases h with h | h | h
  · simp [allowedSlugChar, h]
  · simp [allowedSlugChar, h]
  · simp [allowedSlugChar, ws_jsToLower, h]

theorem jsToLower_ne_hyphen_of_kept {c : Char} (h : keptChar c = true) :
    jsToLower c ≠ '-' := by
  intro he
  have hc := eq_hyphen_of_jsToLower he
  subst hc
  exact absurd h (by decide)

/-! ### List facts -/

theorem mem_of_mem_dropWhile {α : Type} {p : α → Bool} {l : List α} {a : α}
    (h : a ∈ l.dropWhile p) : a ∈ l :=
  (List.dropWhile_sublist p).subset h

theorem head?_dropWhile {α : Type} {p : α → Bool} :
    ∀ (l : List α) {a : α}, (l.dropWhile p).head? = some a → p a = false := by
  intro l
  induction l with
  | nil =>
    intro a h
    simp [List.dropWhile] at h
  | cons c r ih =>
    intro a h
    by_cases hp : p c
    · rw [List.dropWhile_cons, if_pos hp] at h
      exact ih h
    · rw [List.dropWhile_cons, if_neg hp] at h
      simp only [List.head?_cons, Option.some.injEq] at h
      subst h
      exact Bool.eq_false_iff.mpr hp

theorem getLast?_dropWhile {α : Type} {p : α → Bool} :
    ∀ (l : List α), l.dropWhile p ≠ [] →
      (l.dropWhile p).getLast? = l.getLast? := by
  intro l
  induction l with
  | nil =>
    intro h
    simp [List.dropWhile] at h
  | cons c r ih =>
    intro h
    by_cases hp : p c
    · rw [List.dropWhile_cons, if_pos hp] at h ⊢
      rw [ih h]
      have hr : r ≠ [] := by
        intro e
        rw [e] at h
        simp [List.dropWhile] at h
      cases r with
      | nil => exact absurd rfl hr
      | cons b r2 => rw [List.getLast?_cons_cons]
    · rw [List.dropWhile_cons, if_neg hp]

theorem dropWhile_eq_self_of {α : Type} {p : α → Bool} {l : List α}
    (h : ∀ a ∈ l, p a = false) : l.dropWhile p = l := by
  cases l with
  | nil => rfl
  | cons c r =>
    rw [List.dropWhile_cons, if_neg]
    simp [h c (by simp)]

theorem map_eq_self_of {α : Type} {f : α → α} {l : List α}
    (h : ∀ a ∈ l, f a = a) : l.map f = l := by
  induction l with
  | nil => rfl
  | cons c r ih =>
    simp only [List.map_cons]
    rw [h c (by simp), ih (fun a ha => h a (by simp [ha]))]

theorem mem_of_mem_jsTrim {s : JStr} {c : Char} (h : c ∈ jsTrim s) : c ∈ s := by
  unfold jsTrim at h
  rw [List.mem_reverse] at h
  have h2 := mem_of_mem_dropWhile h
  rw [List.mem_reverse] at h2
  exact mem_of_mem_dropWhile h2

theorem jsTrim_head?_not_ws {s : JStr} {c : Char}
    (h : (jsTrim s).head? = some c) : jsIsWhitespace c = false := by
  unfold jsTrim at h
  rw [List.head?_reverse] at h
  have hne :
      (List.dropWhile jsIsWhitespace
        (List.dropWhile jsIsWhitespace s).reverse) ≠ [] := by
    intro e
    rw [e] at h
    simp at h
  rw [getLast?_dropWhile _ hne, List.getLast?_reverse] at h
  exact head?_dropWhile _ h

theorem jsTrim_getLast?_not_ws {s : JStr} {c : Char}
    (h : (jsTrim s).getLast? = some c) : jsIsWhitespace c = false := by
  unfold jsTrim at h
  rw [List.getLast?_reverse] at h
  exact head?_dropWhile _ h

theorem find?_eq_some_split {α : Type} {p : α → Bool} :
    ∀ {l : List α} {b : α}, l.find? p = some b →
      p b = true ∧ ∃ l1 l2, l = l1 ++ b :: l2 ∧ ∀ a ∈ l1, p a = false := by
  intro l
  induction l with
  | nil =>
    intro b h
    simp [List.find?] at h
  | cons c r ih =>
    intro b h
    by_cases hp : p c
    · rw [List.find?_cons_of_pos _ hp] at h
      cases h
      exact ⟨hp, [], r, rfl, by simp⟩
    · rw [List.find?_cons_of_neg _ hp] at h
      obtain ⟨hb, l1, l2, rfl, hall⟩ := ih h
      refine ⟨hb, c :: l1, l2, rfl, ?_⟩
      intro a ha
      rcases List.mem_cons.mp ha with rfl | ha2
      · exact Bool.eq_false_iff.mpr hp
      · exact hall a ha2

theorem find?_exists_of_mem {α : Type} {p : α → Bool} {l : List α} {a : α}
    (ha : a ∈ l) (hp : p a = true) : ∃ b, l.find? p = some b :=
  Option.isSome_iff_exists.mp (List.find?_isSome.mpr ⟨a, ha, hp⟩)

/-! ### Whitespace-collapsing facts -/

theorem collapseGo_cons (a : Char) (l : List Char) (b : Bool) :
    collapseGo (a :: l) b =
      if jsIsWhitespace a then
        (if b then collapseGo l true else '-' :: collapseGo l true)
      else a :: collapseGo l false := rfl

theorem mem_collapseGo {c : Char} :
    ∀ (l : List Char) (b : Bool), c ∈ collapseGo l b →
      c = '-' ∨ (c ∈ l ∧ jsIsWhitespace c = false) := by
  intro l
  induction l with
  | nil =>
    intro b h
    simp [collapseGo] at h
  | cons a r ih =>
    intro b h
    by_cases hw : jsIsWhitespace a
    · cases b with
      | true =>
        simp only [collapseGo, hw, if_true] at h
        rcases ih true h with h2 | ⟨h2, h3⟩
        · exact Or.inl h2
        · exact Or.inr ⟨by simp [h2], h3⟩
      | false =>
        simp only [collapseGo, hw, if_true, if_false] at h
        rcases List.mem_cons.mp h with rfl | h2
        · exact Or.inl rfl
        · rcases ih true h2 with h3 | ⟨h3, h4⟩
          · exact Or.inl h3
          · exact Or.inr ⟨by simp [h3], h4⟩
    · simp only [collapseGo, hw, if_false, Bool.false_eq_true] at h
      rcases List.mem_cons.mp h with rfl | h2
      · exact Or.inr ⟨by simp, Bool.eq_false_iff.mpr hw⟩
      · rcases ih false h2 with h3 | ⟨h3, h4⟩
        · exact Or.inl h3
        · exact Or.inr ⟨by simp [h3], h4⟩

theorem collapseGo_eq_self {l : List Char}
    (h : ∀ c ∈ l, jsIsWhitespace c = false) : ∀ b, collapseGo l b = l := by
  induction l with
  | nil => intro b; rfl
  | cons a r ih =>
    intro b
    have ha := h a (by simp)
    simp only [collapseGo, ha, Bool.false_eq_true, if_false]
    rw [ih (fun c hc => h c (by simp [hc])) false]

theorem collapseGo_head_ne_hyphen {l : List Char} (h : '-' ∉ l) :
    (collapseGo l true).head? ≠ some '-' := by
  induction l with
  | nil => simp [collapseGo]
  | cons a r ih =>
    by_cases hw : jsIsWhitespace a
    · simp only [collapseGo, hw, if_true]
      exact ih (fun hm => h (by simp [hm]))
    · simp only [collapseGo, hw, Bool.false_eq_true, if_false, List.head?_cons,
        ne_eq, Option.some.injEq]
      intro he
      exact h (by simp [he])

theorem noDoubleHyphen_cons {a : Char} {l : List Char}
    (h1 : a = '-' → l.head? ≠ some '-') (h2 : noDoubleHyphen l = true) :
    noDoubleHyphen (a :: l) = true := by
  cases l with
  | nil => rfl
  | cons b r =>
    have hb : ¬(a = '-' ∧ b = '-') := by
      rintro ⟨rfl, rfl⟩
      exact h1 rfl (by simp)
    simp only [noDoubleHyphen, Bool.and_eq_true, Bool.not_eq_true',
      Bool.and_eq_false_iff, beq_eq_false_iff_ne, ne_eq]
    constructor
    · by_cases hab : a = '-'
      · right
        intro he
        exact hb ⟨hab, he⟩
      · left
        intro he
        exact hb ⟨he, by_contra fun _ => hab he⟩
    · exact h2

theorem collapseGo_noDouble {l : List Char} (h : '-' ∉ l) :
    ∀ b, noDoubleHyphen (collapseGo l b) = true := by
  induction l with
  | nil => intro b; rfl
  | cons a r ih =>
    intro b
    have hr : '-' ∉ r := fun hm => h (by simp [hm])
    by_cases hw : jsIsWhitespace a
    · cases b with
      | true => simpa only [collapseGo, hw, if_true] using ih hr true
      | false =>
        simp only [collapseGo, hw, if_true, if_false]
        exact noDoubleHyphen_cons (fun _ => collapseGo_head_ne_hyphen hr)
          (ih hr true)
    · have ha : a ≠ '-' := fun e => h (by simp [e])
      simp only [collapseGo, hw, Bool.false_eq_true, if_false]
      exact noDoubleHyphen_cons (fun e => absurd e ha) (ih hr false)

theorem collapseGo_getLast {z : Char} :
    ∀ (l : List Char) (b : Bool), l.getLast? = some z →
      jsIsWhitespace z = false → (collapseGo l b).getLast? = some z := by
  intro l
  induction l with
  | nil =>
    intro b h _
    simp at h
  | cons a r ih =>
    intro b h hz
    cases r with
    | nil =>
      simp only [List.getLast?_singleton, Option.some.injEq] at h
      subst h
      simp [collapseGo, hz]
    | cons b2 r2 =>
      have h2 : (b2 :: r2).getLast? = some z := by
        rw [← List.getLast?_cons_cons]
        exact h
      by_cases hw : jsIsWhitespace a
      · have tail := ih true h2 hz
        cases b with
        | true =>
          rw [collapseGo_cons, if_pos hw, if_pos rfl]
          exact tail
        | false =>
          rw [collapseGo_cons, if_pos hw, if_neg (by simp)]
          cases hcg : collapseGo (b2 :: r2) true with
          | nil =>
            rw [hcg] at tail
            simp at tail
          | cons x xs =>
            rw [hcg] at tail
            rw [List.getLast?_cons_cons]
            exact tail
      · have tail := ih false h2 hz
        rw [collapseGo_cons, if_neg hw]
        cases hcg : collapseGo (b2 :: r2) false with
        | nil =>
          rw [hcg] at tail
          simp at tail
        | cons x xs =>
          rw [hcg] at tail
          rw [List.getLast?_cons_cons]
          exact tail

/-! ### Structure of slugify output -/

theorem slugifyStr_charset {s : JStr} : ∀ c ∈ slugifyStr s, isSlugChar c = true := by
  intro c hc
  unfold slugifyStr collapseWs at hc
  rcases mem_collapseGo _ _ hc with rfl | ⟨hmem, hnotws⟩
  · decide
  · have hall := List.of_mem_filter hmem
    simp only [allowedSlugChar, Bool.or_eq_true, or_assoc] at hall
    rcases hall with h | h | h | h
    · simp [isSlugChar, h]
    · simp [isSlugChar, h]
    · rw [h] at hnotws
      cases hnotws
    · simp [isSlugChar, h]

theorem slugifyStr_fixed {r : JStr} (h : ∀ c ∈ r, isSlugChar c = true) :
    slugifyStr r = r := by
  have hnows : ∀ c ∈ r, jsIsWhitespace c = false :=
    fun c hc => not_ws_of_isSlugChar (h c hc)
  have hlower : jsToLowerStr r = r :=
    map_eq_self_of (fun c hc => jsToLower_eq_self_of_isSlugChar (h c hc))
  have htrim : jsTrim r = r := by
    unfold jsTrim
    rw [dropWhile_eq_self_of hnows,
      dropWhile_eq_self_of (fun c hc => hnows c (List.mem_reverse.mp hc)),
      List.reverse_reverse]
  have hfilter : r.filter allowedSlugChar = r := by
    rw [List.filter_eq_self]
    intro c hc
    have h1 := h c hc
    simp only [isSlugChar, Bool.or_eq_true, or_assoc] at h1
    rcases h1 with h1 | h1 | h1 <;> simp [allowedSlugChar, h1]
  unfold slugifyStr collapseWs
  rw [hlower, htrim, hfilter, collapseGo_eq_self hnows false]

theorem slugifyStr_noDouble {s : JStr} (h : '-' ∉ s) :
    noDoubleHyphen (slugifyStr s) = true := by
  have h1 : '-' ∉ jsToLowerStr s := by
    intro hm
    obtain ⟨c, hc, he⟩ := List.mem_map.mp hm
    rw [eq_hyphen_of_jsToLower he] at hc
    exact h hc
  have h2 : '-' ∉ jsTrim (jsToLowerStr s) := fun hm => h1 (mem_of_mem_jsTrim hm)
  have h3 : '-' ∉ (jsTrim (jsToLowerStr s)).filter allowedSlugChar :=
    fun hm => h2 (List.mem_of_mem_filter hm)
  exact collapseGo_noDouble h3 false

theorem slugifyStr_wellEnded {s : JStr} (h : ∀ c ∈ s, keptChar c = true) :
    (slugifyStr s).head? ≠ some '-' ∧ (slugifyStr s).getLast? ≠ some '-' := by
  have htmem : ∀ c ∈ jsTrim (jsToLowerStr s),
      allowedSlugChar c = true ∧ c ≠ '-' := by
    intro c hc
    have hc2 : c ∈ jsToLowerStr s := mem_of_mem_jsTrim hc
    obtain ⟨d, hd, rfl⟩ := List.mem_map.mp hc2
    exact ⟨allowed_of_kept (h d hd), jsToLower_ne_hyphen_of_kept (h d hd)⟩
  have hfilter :
      (jsTrim (jsToLowerStr s)).filter allowedSlugChar = jsTrim (jsToLowerStr s) :=
    List.filter_eq_self.mpr (fun c hc => (htmem c hc).1)
  have hslug : slugifyStr s = collapseGo (jsTrim (jsToLowerStr s)) false := by
    unfold slugifyStr collapseWs
    rw [hfilter]
  constructor
  · rw [hslug]
    cases hT : jsTrim (jsToLowerStr s) with
    | nil => simp [collapseGo]
    | cons a r =>
      have haw : jsIsWhitespace a = false :=
        jsTrim_head?_not_ws (by rw [hT, List.head?_cons])
      have hah : a ≠ '-' := (htmem a (by rw [hT]; simp)).2
      rw [collapseGo_cons, if_neg (by simp [haw]), List.head?_cons]
      intro he
      exact hah (by injection he)
  · rw [hslug]
    cases hT : jsTrim (jsToLowerStr s) with
    | nil => simp [collapseGo]
    | cons a r =>
      obtain ⟨z, hz⟩ : ∃ z, (a :: r).getLast? = some z :=
        ⟨(a :: r).getLast (by simp), List.getLast?_eq_getLast _ (by simp)⟩
      have hzw : jsIsWhitespace z = false :=
        jsTrim_getLast?_not_ws (by rw [hT]; exact hz)
      have hzh : z ≠ '-' :=
        (htmem z (by rw [hT]; exact List.mem_of_getLast?_eq_some hz)).2
      rw [collapseGo_getLast _ false hz hzw]
      intro he
      exact hzh (by injection he)

/-! ### Claim theorems -/

/-- C1: for every input, `slugify` returns a string over `[a-z0-9-]` only
and is idempotent (`slugify(slugify(t)) = slugify(t)`); hyphens beyond the
single ones introduced by collapsing whitespace runs can only come from
literal hyphens in the input: a hyphen-free input yields no consecutive
hyphens, and an input whose characters all survive the filter (lowercase
letters, digits or whitespace after case mapping) additionally yields no
leading or trailing hyphen. -/
theorem slugify_wellformed_idempotent (t : JsValue) :
    (∀ c ∈ slugify t, isSlugChar c = true) ∧
    slugify (.str (slugify t)) = slugify t ∧
    ('-' ∉ jsToString t → noDoubleHyphen (slugify t) = true) ∧
    ((∀ c ∈ jsToString t, keptChar c = true) →
      (slugify t).head? ≠ some '-' ∧ (slugify t).getLast? ≠ some '-' ∧
        noDoubleHyphen (slugify t) = true) := by
  refine ⟨?_, ?_, ?_, ?_⟩
  · intro c hc
    exact slugifyStr_charset c hc
  · by_cases h0 : slugify t = []
    · rw [h0]
      rfl
    · have ht : jsTruthy (JsValue.str (slugify t)) = true := by
        simp [jsTruthy, h0]
      show slugifyStr _ = _
      rw [if_pos ht]
      exact slugifyStr_fixed slugifyStr_charset
  · intro h
    unfold slugify
    cases htv : jsTruthy t with
    | true =>
      rw [if_pos rfl]
      exact slugifyStr_noDouble h
    | false =>
      rw [if_neg (by simp)]
      decide
  · intro h
    unfold slugify
    cases htv : jsTruthy t with
    | true =>
      rw [if_pos rfl]
      have hnh : '-' ∉ jsToString t := by
        intro hm
        exact absurd (h '-' hm) (by decide)
      obtain ⟨h1, h2⟩ := slugifyStr_wellEnded h
      exact ⟨h1, h2, slugifyStr_noDouble hnh⟩
    | false =>
      rw [if_neg (by simp)]
      refine ⟨by decide, by decide, by decide⟩

/-- C1 witness: the guarantees instantiated on a concrete name. -/
theorem slugify_wellformed_idempotent_witness :
    noDoubleHyphen (slugify (.str (js "F1 Grand Prix 2024"))) = true ∧
    (slugify (.str (js "F1 Grand Prix 2024"))).head? ≠ some '-' ∧
    (slugify (.str (js "F1 Grand Prix 2024"))).getLast? ≠ some '-' :=
  ⟨(slugify_wellformed_idempotent (.str (js "F1 Grand Prix 2024"))).2.2.1
      (by decide),
   ((slugify_wellformed_idempotent (.str (js "F1 Grand Prix 2024"))).2.2.2
      (by decide)).1,
   ((slugify_wellformed_idempotent (.str (js "F1 Grand Prix 2024"))).2.2.2
      (by decide)).2.1⟩

/-- C10: `slugify` is total on arbitrary runtime values: every falsy input
(null, undefined, NaN, false, 0, the empty string) yields the empty
string, and every truthy input is processed through the string coercion
`String(v)`; being a total Lean function it never throws. -/
theorem slugify_total_on_values (v : JsValue) :
    (jsTruthy v = false → slugify v = []) ∧
    (jsTruthy v = true → slugify v = slugifyStr (jsToString v)) := by
  constructor
  · intro h
    unfold slugify
    rw [if_neg (by simp [h])]
    decide
  · intro h
    unfold slugify
    rw [if_pos h]

/-- C10 witness: the two branches at concrete values. -/
theorem slugify_total_on_values_witness :
    slugify .null = [] ∧ slugify .undef = [] ∧ slugify (.num 0) = [] ∧
    slugify (.num 44) = slugifyStr (jsToString (.num 44)) :=
  ⟨(slugify_total_on_values .null).1 rfl,
   (slugify_total_on_values .undef).1 rfl,
   (slugify_total_on_values (.num 0)).1 rfl,
   (slugify_total_on_values (.num 44)).2 (by decide)⟩

/-- C5: `readJSON` never raises past its boundary: it returns the parsed
content when the file read and the parse both succeed, and the `null`
sentinel when the file is missing or its content fails to parse. -/
theorem readJSON_sentinel {α : Type} (readFile : Option JStr)
    (parse : JStr → Except JStr α) :
    (readFile = none → readJSON readFile parse = none) ∧
    (∀ c m, readFile = some c → parse c = .error m →
      readJSON readFile parse = none) ∧
    (∀ c v, readFile = some c → parse c = .ok v →
      readJSON readFile parse = some v) := by
  refine ⟨?_, ?_, ?_⟩
  · intro h
    rw [h]
    rfl
  · intro c m h1 h2
    simp [readJSON, h1, h2]
  · intro c v h1 h2
    simp [readJSON, h1, h2]

/-- C5 witness: the three behaviours at concrete inputs. -/
theorem readJSON_sentinel_witness :
    readJSON (α := Nat) none (fun _ => .ok 3) = none ∧
    readJSON (α := Nat) (some (js "bad")) (fun _ => .error (js "syntax")) = none ∧
    readJSON (α := Nat) (some (js "3")) (fun _ => .ok 3) = some 3 :=
  ⟨(readJSON_sentinel none (fun _ => .ok 3)).1 rfl,
   (readJSON_sentinel (some (js "bad")) (fun _ => .error (js "syntax"))).2.1
      (js "bad") (js "syntax") rfl rfl,
   (readJSON_sentinel (some (js "3")) (fun _ => .ok 3)).2.2
      (js "3") 3 rfl rfl⟩

/-- C3: with an existing script, `runPython` resolves with the complete
captured stdout exactly when the process exits with code 0 (stderr alone
never causes rejection), and on a non-zero exit code it rejects with a
non-empty message: the trimmed stderr when non-empty, otherwise a message
naming the exit code. -/
theorem runPython_resolve_reject (proc : List JStr → ProcOutcome)
    (scriptPath : JStr) (args : List JStr) (o : ProcOutcome)
    (ho : proc (js "-X" :: js "utf8" :: scriptPath :: args) = o) :
    (runPython true proc scriptPath args = .resolved o.stdout ↔
      o.exitCode = 0) ∧
    (o.exitCode ≠ 0 →
      ∃ m, runPython true proc scriptPath args = .rejected m ∧ m ≠ [] ∧
        m = (if jsTrim o.stderr ≠ [] then jsTrim o.stderr
             else js "Python script exited with code " ++ intToStr o.exitCode)) := by
  have hrun : runPython true proc scriptPath args =
      if o.exitCode ≠ 0 then
        .rejected (if jsTrim o.stderr ≠ [] then jsTrim o.stderr
                   else js "Python script exited with code " ++ intToStr o.exitCode)
      else .resolved o.stdout := by
    unfold runPython
    rw [if_neg (by simp), ho]
  constructor
  · constructor
    · intro h
      by_contra hc
      rw [hrun, if_pos hc] at h
      exact PyResult.noConfusion h
    · intro h
      rw [hrun, if_neg (by simp [h])]
  · intro h
    refine ⟨_, ?_, ?_, rfl⟩
    · rw [hrun, if_pos h]
    · by_cases hs : jsTrim o.stderr ≠ []
      · rw [if_pos hs]
        exact hs
      · rw [if_neg hs]
        simp [js]

/-- C3 witness: a zero-exit resolution and a non-zero-exit rejection with a
non-empty message, at concrete process outcomes. -/
theorem runPython_resolve_reject_witness :
    (runPython true (fun _ => ⟨0, js "data", js "warning"⟩) (js "s.py") [] =
      .resolved (js "data")) ∧
    ∃ m, runPython true (fun _ => ⟨2, js "out", js "  "⟩) (js "s.py") [] =
        .rejected m ∧ m ≠ [] ∧
      m = (if jsTrim (js "  ") ≠ [] then jsTrim (js "  ")
           else js "Python script exited with code " ++ intToStr 2) :=
  ⟨(runPython_resolve_reject (fun _ => ⟨0, js "data", js "warning"⟩)
      (js "s.py") [] ⟨0, js "data", js "warning"⟩ rfl).1.mpr rfl,
   (runPython_resolve_reject (fun _ => ⟨2, js "out", js "  "⟩)
      (js "s.py") [] ⟨2, js "out", js "  "⟩ rfl).2 (by decide)⟩

/-- C2: the driver-detail handler locates the first driver whose slugified
full name equals the path parameter — so any driver record is found by the
slug of its own full name, up to an earlier duplicate with the same slug —
and renders the 404 not-found state with the empty view model when no
record matches. -/
theorem driverDetail_slug_lookup (driverId : JStr) (drivers : List Driver)
    (descs : Option (List (JStr × JStr)))
    (statsOf : JStr → Option DriverStats) :
    (findDriver drivers driverId = none →
      driverDetailHandler driverId (some drivers) descs statsOf = .notFound) ∧
    (∀ d ∈ drivers, ∃ l1 d2 l2, drivers = l1 ++ d2 :: l2 ∧
      slugifyStr d2.full_name = slugifyStr d.full_name ∧
      (∀ e ∈ l1, slugifyStr e.full_name ≠ slugifyStr d.full_name) ∧
      findDriver drivers (slugifyStr d.full_name) = some d2) := by
  constructor
  · intro h
    simp [driverDetailHandler, h]
  · intro d hd
    obtain ⟨d2, hd2⟩ :
        ∃ b, drivers.find?
          (fun e => slugifyStr e.full_name == slugifyStr d.full_name) = some b :=
      find?_exists_of_mem hd (by simp)
    obtain ⟨hp, l1, l2, heq, hall⟩ := find?_eq_some_split hd2
    refine ⟨l1, d2, l2, heq, by simpa using hp, ?_, hd2⟩
    intro e he
    have h2 := hall e he
    simpa using h2

/-- C2 witness: a missing slug renders 404, and a present driver is found
by the slug of its own full name. -/
theorem driverDetail_slug_lookup_witness :
    driverDetailHandler (js "lando-norris")
        (some [⟨js "Max Verstappen", js "Red Bull Racing", .num 1⟩])
        none (fun _ => none) = .notFound ∧
    ∃ l1 d2 l2,
      [(⟨js "Max Verstappen", js "Red Bull Racing", .num 1⟩ : Driver)] =
          l1 ++ d2 :: l2 ∧
      slugifyStr d2.full_name = slugifyStr (js "Max Verstappen") ∧
      (∀ e ∈ l1, slugifyStr e.full_name ≠ slugifyStr (js "Max Verstappen")) ∧
      findDriver [⟨js "Max Verstappen", js "Red Bull Racing", .num 1⟩]
        (slugifyStr (js "Max Verstappen")) = some d2 :=
  ⟨(driverDetail_slug_lookup (js "lando-norris")
      [⟨js "Max Verstappen", js "Red Bull Racing", .num 1⟩]
      none (fun _ => none)).1 (by decide),
   (driverDetail_slug_lookup (js "lando-norris")
      [⟨js "Max Verstappen", js "Red Bull Racing", .num 1⟩]
      none (fun _ => none)).2
      ⟨js "Max Verstappen", js "Red Bull Racing", .num 1⟩ (by simp)⟩

/-- C9 counterexample: when the drivers data loader returns its `null`
sentinel, the handler responds with the generic 500 hard-error state, not
the 404 not-found state the claim asserts (the lookup `drivers.find`
throws a `TypeError` on `null`, which the handler's catch converts to the
500 render). -/
theorem driverDetail_nullData_counterexample :
    driverDetailHandler (js "max-verstappen") none none (fun _ => none) =
      .error500 ∧
    DriverDetailRes.error500 ≠ DriverDetailRes.notFound :=
  ⟨rfl, by decide⟩

/-- C9 amended: for every request to GET /drivers/:driverId, when the
drivers data file is missing or malformed (the loader returns its `null`
sentinel), the handler responds with the generic 500 hard-error state —
`drivers.find` throws a `TypeError` that the catch converts into the 500
render — rather than the 404 not-found state. -/
theorem driverDetail_nullData_500 (driverId : JStr)
    (descs : Option (List (JStr × JStr)))
    (statsOf : JStr → Option DriverStats) :
    driverDetailHandler driverId none descs statsOf = .error500 := rfl

/-- C7: the image probe returns the URL for the first extension in the
fixed order avif, png, webp, jpg, jpeg whose file exists — in particular,
with the `.png` present and the `.avif` absent it picks `.png` regardless
of the lower-priority extensions — and returns no URL when none of the
five files exists. -/
theorem probeImage_priority (fsExists : JStr → Bool) (c : JStr) :
    (probeImage fsExists c = none ↔
      ∀ e ∈ possibleExtensions, fsExists (imageName c e) = false) ∧
    (∀ u, probeImage fsExists c = some u →
      ∃ l1 e l2, possibleExtensions = l1 ++ e :: l2 ∧
        fsExists (imageName c e) = true ∧
        (∀ e2 ∈ l1, fsExists (imageName c e2) = false) ∧
        u = imageUrl c e) ∧
    (fsExists (imageName c (js "png")) = true →
      fsExists (imageName c (js "avif")) = false →
      probeImage fsExists c = some (imageUrl c (js "png"))) := by
  refine ⟨?_, ?_, ?_⟩
  · unfold probeImage
    cases hf : possibleExtensions.find? (fun e => fsExists (imageName c e)) with
    | none =>
      simp only [Option.map_none', true_iff]
      intro e he
      have := List.find?_eq_none.mp hf e he
      simpa using this
    | some e =>
      simp only [Option.map_some']
      constructor
      · intro h
        exact Option.noConfusion h
      · intro h
        have hmem := List.mem_of_find?_eq_some hf
        have hp := List.find?_some hf
        rw [h e hmem] at hp
        exact Bool.noConfusion hp
  · intro u hu
    unfold probeImage at hu
    cases hf : possibleExtensions.find? (fun e => fsExists (imageName c e)) with
    | none =>
      rw [hf] at hu
      exact Option.noConfusion hu
    | some e =>
      rw [hf] at hu
      obtain ⟨hp, l1, l2, heq, hall⟩ := find?_eq_some_split hf
      refine ⟨l1, e, l2, heq, hp, hall, ?_⟩
      simpa using hu.symm
  · intro hpng havif
    unfold probeImage possibleExtensions
    rw [List.find?_cons_of_neg _ (by simp [havif]),
      List.find?_cons_of_pos (p := fun e => fsExists (imageName c e)) _
        (by simpa using hpng)]
    rfl

/-- C7 witness: with `bahrain.png` present and `bahrain.avif` absent the
probe picks the png, over a lower-priority jpg that also exists. -/
theorem probeImage_priority_witness :
    probeImage (fun n => n == js "bahrain.png" || n == js "bahrain.jpg")
      (js "bahrain") = some (imageUrl (js "bahrain") (js "png")) :=
  (probeImage_priority (fun n => n == js "bahrain.png" || n == js "bahrain.jpg")
    (js "bahrain")).2.2 (by decide) (by decide)

/-- C4: for a session key matching no schedule entry (comparing
`session_key` as a string), both GET /replays/:session_key and
GET /api/locations/:session_key/:startTime/:endTime respond with their
404 not-found state, never a 500. -/
theorem missingSession_404 {α : Type} (key startTime endTime : JStr)
    (schedule : Option (List Session)) (layouts : Option (List Layout))
    (fsExists : JStr → Bool) (drivers : Option (List Driver))
    (f1Teams : Option (List Team)) (scriptExists locScriptExists : Bool)
    (proc locProc : List JStr → ProcOutcome)
    (parse : JStr → Except JStr RaceTiming) (locParse : JStr → Except JStr α)
    (dateYear : JsValue → Option Int)
    (h : ∀ s ∈ schedule.getD [], jsToString s.session_key ≠ key) :
    replaysHandler key schedule layouts fsExists drivers f1Teams scriptExists
        proc parse dateYear = .notFound ∧
    locationsHandler key startTime endTime schedule dateYear locScriptExists
        locProc locParse = .notFound := by
  have hnone : lookupSession schedule key = none := by
    cases schedule with
    | none => rfl
    | some l =>
      unfold lookupSession
      rw [List.find?_eq_none]
      intro s hs
      have hmem : s ∈ (some l).getD [] := by simpa using hs
      simpa using h s hmem
  constructor
  · simp [replaysHandler, hnone]
  · simp [locationsHandler, hnone]

/-- C4 witness: both handlers at a key absent from a concrete schedule. -/
theorem missingSession_404_witness :
    replaysHandler (js "1234")
        (some [⟨.num 9222, some (js "Sakhir"), .str (js "Bahrain Grand Prix"),
          .str (js "Race"), .num 2024, .undef⟩])
        none (fun _ => false) none none true (fun _ => ⟨0, [], []⟩)
        (fun _ => .error []) (fun _ => none) = .notFound ∧
    locationsHandler (α := Nat) (js "1234") (js "0") (js "9")
        (some [⟨.num 9222, some (js "Sakhir"), .str (js "Bahrain Grand Prix"),
          .str (js "Race"), .num 2024, .undef⟩])
        (fun _ => none) true (fun _ => ⟨0, [], []⟩)
        (fun _ => .error []) = .notFound :=
  missingSession_404 (js "1234") (js "0") (js "9")
    (some [⟨.num 9222, some (js "Sakhir"), .str (js "Bahrain Grand Prix"),
      .str (js "Race"), .num 2024, .undef⟩])
    none (fun _ => false) none none true true (fun _ => ⟨0, [], []⟩)
    (fun _ => ⟨0, [], []⟩) (fun _ => .error []) (fun _ => .error [])
    (fun _ => none) (by decide)

/-- C6: when the race-timing invocation reaches the script and the
script's stdout parses to an object with a truthy `error` field, the
replay handler treats the fetch as failed: it responds with the 500 error
state whose message is the catch's text followed by that error text, and
it does not render the replay page. -/
theorem replays_timing_error_500 (key : JStr) (schedule : Option (List Session))
    (layouts : Option (List Layout)) (fsExists : JStr → Bool)
    (drivers : Option (List Driver)) (f1Teams : Option (List Team))
    (scriptExists : Bool) (proc : List JStr → ProcOutcome)
    (parse : JStr → Except JStr RaceTiming) (dateYear : JsValue → Option Int)
    (si : Session) (raw : JStr) (rt : RaceTiming) (ev : JsValue)
    (hfind : lookupSession schedule key = some si)
    (hyear : jsTruthy (deriveYear dateYear si) = true)
    (hevent : jsTruthy si.meeting_name = true)
    (hsession : jsTruthy si.session_name = true)
    (hrun : runPython scriptExists proc (js "get_replay_data.py")
        (timingArgs dateYear si) = .resolved raw)
    (hparse : parse raw = .ok rt)
    (herr : rt.error = some ev) (htruthy : jsTruthy ev = true) :
    replaysHandler key schedule layouts fsExists drivers f1Teams scriptExists
        proc parse dateYear = .error500 (pageLoadErrHead ++ jsToString ev) ∧
    ∀ vm, replaysHandler key schedule layouts fsExists drivers f1Teams
        scriptExists proc parse dateYear ≠ .ok vm := by
  have hfetch : fetchRaceTiming scriptExists proc parse dateYear (some si) =
      .error (jsToString ev) := by
    simp [fetchRaceTiming, hyear, hevent, hsession, hrun, hparse, herr, htruthy]
  have h1 : replaysHandler key schedule layouts fsExists drivers f1Teams
      scriptExists proc parse dateYear =
        .error500 (pageLoadErrHead ++ jsToString ev) := by
    simp [replaysHandler, hfind, hfetch]
  refine ⟨h1, ?_⟩
  intro vm hvm
  rw [h1] at hvm
  exact ReplaysRes.noConfusion hvm

/-- C6 witness: a concrete session whose timing script prints a JSON
object with an error field. -/
theorem replays_timing_error_500_witness :
    replaysHandler (js "1")
        (some [⟨.num 1, some (js "Sakhir"), .str (js "Bahrain Grand Prix"),
          .str (js "Race"), .num 2024, .undef⟩])
        none (fun _ => false) none none true (fun _ => ⟨0, js "raw", []⟩)
        (fun _ => .ok ⟨some (.str (js "boom")), none, none, none⟩)
        (fun _ => none) = .error500 (pageLoadErrHead ++ js "boom") :=
  (replays_timing_error_500 (js "1")
    (some [⟨.num 1, some (js "Sakhir"), .str (js "Bahrain Grand Prix"),
      .str (js "Race"), .num 2024, .undef⟩])
    none (fun _ => false) none none true (fun _ => ⟨0, js "raw", []⟩)
    (fun _ => .ok ⟨some (.str (js "boom")), none, none, none⟩)
    (fun _ => none)
    ⟨.num 1, some (js "Sakhir"), .str (js "Bahrain Grand Prix"),
      .str (js "Race"), .num 2024, .undef⟩
    (js "raw") ⟨some (.str (js "boom")), none, none, none⟩ (.str (js "boom"))
    (by decide) (by decide) (by decide) (by decide) (by decide) rfl rfl
    (by decide)).1

/-- C8: for a session present in the schedule whose normalized circuit
name has no entry in the track layouts data, the replay page still
renders (given the rest of the pipeline succeeds) with a null `layout` in
the session view model — the missing layout alone causes neither a 404
nor a 500. -/
theorem replays_missing_layout_renders (key : JStr)
    (schedule : Option (List Session)) (layouts : Option (List Layout))
    (fsExists : JStr → Bool) (drivers : Option (List Driver))
    (f1Teams : Option (List Team)) (scriptExists : Bool)
    (proc : List JStr → ProcOutcome) (parse : JStr → Except JStr RaceTiming)
    (dateYear : JsValue → Option Int) (si : Session) (rt : RaceTiming)
    (hfind : lookupSession schedule key = some si)
    (hlayout : findLayout layouts (circuitNameOf si) = none)
    (hfetch : fetchRaceTiming scriptExists proc parse dateYear (some si) =
      .ok rt) :
    ∃ vm, replaysHandler key schedule layouts fsExists drivers f1Teams
        scriptExists proc parse dateYear = .ok vm ∧
      vm.sessionInfo.layout = none := by
  refine ⟨{ session_key := key
            driverDirectory := buildDriverDirectory drivers f1Teams
            sessionInfo :=
              { base := si
                trackImageUrl :=
                  match circuitNameOf si with
                  | some c => if c ≠ [] then probeImage fsExists c else none
                  | none => none
                layout := findLayout layouts (circuitNameOf si)
                date_start :=
                  match rt.race_start_date with
                  | some d => if d ≠ [] then .str d else si.date_start
                  | none => si.date_start
                race_end_date :=
                  match rt.race_end_date with
                  | some d => if d ≠ [] then some d else none
                  | none => none
                race_control_messages :=
                  match rt.all_messages with
                  | some v => if jsTruthy v then some v else none
                  | none => none } }, ?_, ?_⟩
  · simp only [replaysHandler, hfind, hfetch]
  · simp only [hlayout]

/-- C8 witness: a concrete schedule entry with no matching layout record
still renders, with a null layout. -/
theorem replays_missing_layout_renders_witness :
    ∃ vm, replaysHandler (js "1")
        (some [⟨.num 1, some (js "Nowhere"), .str (js "Nowhere Grand Prix"),
          .str (js "Race"), .num 2024, .undef⟩])
        (some []) (fun _ => false) none none true (fun _ => ⟨0, js "raw", []⟩)
        (fun _ => .ok ⟨none, none, none, none⟩) (fun _ => none) = .ok vm ∧
      vm.sessionInfo.layout = none :=
  replays_missing_layout_renders (js "1")
    (some [⟨.num 1, some (js "Nowhere"), .str (js "Nowhere Grand Prix"),
      .str (js "Race"), .num 2024, .undef⟩])
    (some []) (fun _ => false) none none true (fun _ => ⟨0, js "raw", []⟩)
    (fun _ => .ok ⟨none, none, none, none⟩) (fun _ => none)
    ⟨.num 1, some (js "Nowhere"), .str (js "Nowhere Grand Prix"),
      .str (js "Race"), .num 2024, .undef⟩
    ⟨none, none, none, none⟩ (by decide) (by decide) rfl
